import Mathlib

/-!
# Verification of the vybe.fm recommendation core

This file gives a shallow embedding, in Lean 4, of the recommendation core of
the vybe.fm backend (services `musicAnalysis` and `recommendationEngine`), and
proves or refutes the frozen claims about it.

Modelling conventions:

* JavaScript numbers are modelled by `ℚ` wherever the code only performs
  field arithmetic and comparisons.  The two places where irrational values
  arise (`Math.sqrt` in the cosine similarity and in the Euclidean distance)
  are modelled symbolically: `SimValue.sqrtVal q` denotes the real number
  `Real.sqrt q`, and `SimValue.nan` denotes the IEEE NaN produced by the
  JavaScript expression `0/0`.  The (noncomputable) interpretation into the
  reals is `SimValue.toReal`; all executable code stays on the symbolic side.
* The TypeScript interfaces `AudioProfile` and `SpotifyAudioFeatures` carry
  the same twelve numeric fields (`time_signature` in the latter is spelled
  `timeSignature` in the former); both are modelled by the one structure
  `AudioFeatures`.
* `x || d` on numbers (used for the per-feature weight fall-backs) is
  `jsOrDefault`: `0` is falsy in JavaScript, so a zero field falls back to
  the default.
* `Array.prototype.sort` is stable (ECMAScript 2019); it is modelled by
  `List.mergeSort`, which is a stable merge sort, with the comparator
  `(a, b) => b.confidence - a.confidence` becoming the boolean relation
  `b.confidence ≤ a.confidence`.
-/

namespace Vybe

/-- Audio feature bundle: models both the `AudioProfile` interface and the
`SpotifyAudioFeatures` payload (they carry the same twelve numeric fields;
`time_signature` is spelled `timeSignature` here). -/
@[ext]
structure AudioFeatures where
  valence : ℚ
  energy : ℚ
  danceability : ℚ
  acousticness : ℚ
  instrumentalness : ℚ
  liveness : ℚ
  speechiness : ℚ
  tempo : ℚ
  loudness : ℚ
  mode : ℚ
  key : ℚ
  timeSignature : ℚ
deriving DecidableEq, Repr

/-- The `ContextWeights` interface from `types/api`: four bounded weights and
a tempo multiplier. -/
@[ext]
structure ContextWeights where
  valence : ℚ
  energy : ℚ
  danceability : ℚ
  acousticness : ℚ
  tempoModifier : ℚ
deriving DecidableEq, Repr

/-- `MusicAnalysisService.clamp`: `Math.min(Math.max(value, min), max)`. -/
def clamp (value lo hi : ℚ) : ℚ :=
  min (max value lo) hi

/-- The `WeightedAudioProfile` interface: an `AudioProfile` carrying the
`ContextWeights` it was built with. -/
@[ext]
structure WeightedAudioProfile extends AudioFeatures where
  weights : ContextWeights
deriving DecidableEq, Repr

/-- `MusicAnalysisService.applyContextWeights`: spreads the profile, attaches
the weights, overrides the four bounded fields with
`clamp(field * (1 + weight * 0.5), 0, 1)` and scales the tempo by
`tempoModifier`. -/
def applyContextWeights (profile : AudioFeatures) (contextWeights : ContextWeights) :
    WeightedAudioProfile where
  valence := clamp (profile.valence * (1 + contextWeights.valence * 0.5)) 0 1
  energy := clamp (profile.energy * (1 + contextWeights.energy * 0.5)) 0 1
  danceability := clamp (profile.danceability * (1 + contextWeights.danceability * 0.5)) 0 1
  acousticness := clamp (profile.acousticness * (1 + contextWeights.acousticness * 0.5)) 0 1
  instrumentalness := profile.instrumentalness
  liveness := profile.liveness
  speechiness := profile.speechiness
  tempo := profile.tempo * contextWeights.tempoModifier
  loudness := profile.loudness
  mode := profile.mode
  key := profile.key
  timeSignature := profile.timeSignature
  weights := contextWeights

/-- `RecommendationEngineService.adjustWeight`:
`baseWeight + (userPreference - baseWeight) * learningRate`. -/
def adjustWeight (baseWeight userPreference learningRate : ℚ) : ℚ :=
  baseWeight + (userPreference - baseWeight) * learningRate

/-- The `personalizedWeights` record built inside
`RecommendationEngineService.applyIndividualLearning` when a similar context
pattern was found: every one of the five fields is passed through
`adjustWeight` with `learningRate = 0.3`. -/
def personalizedWeights (baseWeights similarContextPattern : ContextWeights) :
    ContextWeights :=
  let learningRate : ℚ := 0.3
  { valence := adjustWeight baseWeights.valence similarContextPattern.valence learningRate
    energy := adjustWeight baseWeights.energy similarContextPattern.energy learningRate
    danceability :=
      adjustWeight baseWeights.danceability similarContextPattern.danceability learningRate
    acousticness :=
      adjustWeight baseWeights.acousticness similarContextPattern.acousticness learningRate
    tempoModifier :=
      adjustWeight baseWeights.tempoModifier similarContextPattern.tempoModifier learningRate }

/-- `RecommendationEngineService.findSimilarContextPattern` is simplified in
the source: it always returns `null`. -/
def findSimilarContextPattern (_contextText : String) : Option ContextWeights :=
  none

/-- `RecommendationEngineService.applyIndividualLearning`: returns
`baseWeights` unchanged when no similar context pattern exists, and the
`personalizedWeights` record otherwise. -/
def applyIndividualLearning (baseWeights : ContextWeights) (contextText : String) :
    ContextWeights :=
  match findSimilarContextPattern contextText with
  | none => baseWeights
  | some p => personalizedWeights baseWeights p

/-- The eleven features `normalizeFeatures` produces (everything except the
time signature). -/
@[ext]
structure NormalizedFeatures where
  valence : ℚ
  energy : ℚ
  danceability : ℚ
  acousticness : ℚ
  instrumentalness : ℚ
  liveness : ℚ
  speechiness : ℚ
  tempo : ℚ
  loudness : ℚ
  mode : ℚ
  key : ℚ
deriving DecidableEq, Repr

/-- `MusicAnalysisService.normalizeFeatures`: bounded fields pass through,
`tempo` divides by 200, `loudness` maps through `(loudness + 60) / 60`,
`key` divides by 11. -/
def normalizeFeatures (features : AudioFeatures) : NormalizedFeatures where
  valence := features.valence
  energy := features.energy
  danceability := features.danceability
  acousticness := features.acousticness
  instrumentalness := features.instrumentalness
  liveness := features.liveness
  speechiness := features.speechiness
  tempo := features.tempo / 200
  loudness := (features.loudness + 60) / 60
  mode := features.mode
  key := features.key / 11

/-- JavaScript `x || d` on numbers: `0` is falsy, so it is replaced by the
default `d`. -/
def jsOrDefault (x d : ℚ) : ℚ :=
  if x = 0 then d else x

/-- The per-feature weight table of `calculateSimilarity`.  The four context
fields use `contextWeights?.field || default`; the other seven weights are
hard-coded. -/
def featureWeights (contextWeights : Option ContextWeights) : NormalizedFeatures :=
  { valence :=
      match contextWeights with
      | some cw => jsOrDefault cw.valence 0.8
      | none => 0.8
    energy :=
      match contextWeights with
      | some cw => jsOrDefault cw.energy 0.8
      | none => 0.8
    danceability :=
      match contextWeights with
      | some cw => jsOrDefault cw.danceability 0.7
      | none => 0.7
    acousticness :=
      match contextWeights with
      | some cw => jsOrDefault cw.acousticness 0.6
      | none => 0.6
    instrumentalness := 0.4
    liveness := 0.3
    speechiness := 0.3
    tempo := 0.5
    loudness := 0.2
    mode := 0.3
    key := 0.2 }

/-- The dot-product accumulator of `calculateSimilarity`: for each of the
eleven features the loop adds `(w * a) * (w * b)`. -/
def weightedDot (w a b : NormalizedFeatures) : ℚ :=
  (w.valence * a.valence) * (w.valence * b.valence) +
  (w.energy * a.energy) * (w.energy * b.energy) +
  (w.danceability * a.danceability) * (w.danceability * b.danceability) +
  (w.acousticness * a.acousticness) * (w.acousticness * b.acousticness) +
  (w.instrumentalness * a.instrumentalness) * (w.instrumentalness * b.instrumentalness) +
  (w.liveness * a.liveness) * (w.liveness * b.liveness) +
  (w.speechiness * a.speechiness) * (w.speechiness * b.speechiness) +
  (w.tempo * a.tempo) * (w.tempo * b.tempo) +
  (w.loudness * a.loudness) * (w.loudness * b.loudness) +
  (w.mode * a.mode) * (w.mode * b.mode) +
  (w.key * a.key) * (w.key * b.key)

/-- The norm accumulator of `calculateSimilarity`: the sum of `(w * a)²`
over the eleven features, i.e. `weightedDot w a a`. -/
def weightedNormSq (w a : NormalizedFeatures) : ℚ :=
  weightedDot w a a

/-- The value of the similarity computation.  The source computes
`clamp(dot / (Math.sqrt(norm1) * Math.sqrt(norm2)), 0, 1)` on IEEE doubles:

* when `norm1 * norm2 = 0` the numerator is also `0` (a zero norm forces
  every weighted feature, hence the dot product, to `0`), the division is
  `0/0 = NaN`, and `Math.min`/`Math.max` propagate NaN — `SimValue.nan`;
* otherwise the result is the nonnegative real
  `min (max (dot, 0), √(norm1·norm2)) / √(norm1·norm2)`, which is recorded
  by its square: `sqrtVal q` denotes `Real.sqrt q`, and the square of the
  clamped quotient is `min ((max dot 0)² / (norm1·norm2)) 1`. -/
inductive SimValue where
  | nan : SimValue
  | sqrtVal : ℚ → SimValue
deriving DecidableEq, Repr

/-- Interpretation of a `SimValue` as the IEEE result it stands for: `none`
is NaN, `some r` a real number. -/
noncomputable def SimValue.toReal : SimValue → Option ℝ
  | SimValue.nan => none
  | SimValue.sqrtVal q => some (Real.sqrt (q : ℝ))

/-- JavaScript `>` between a similarity value and a rational threshold:
`NaN > c` is false; `√q > c` holds iff `c < 0` or `c² < q` (for the `q ≥ 0`
produced by `calculateSimilarity`). -/
def SimValue.gtb : SimValue → ℚ → Bool
  | SimValue.nan, _ => false
  | SimValue.sqrtVal q, c => decide (c < 0 ∨ c ^ 2 < q)

/-- `MusicAnalysisService.calculateSimilarity`: weighted cosine similarity
over the eleven normalized features, clamped to `[0,1]`, with NaN (from
`0/0`) when either weighted norm vanishes.  See `SimValue` for the
representation of the result. -/
def calculateSimilarity (profile1 profile2 : AudioFeatures)
    (contextWeights : Option ContextWeights) : SimValue :=
  let w := featureWeights contextWeights
  let features1 := normalizeFeatures profile1
  let features2 := normalizeFeatures profile2
  let dotProduct := weightedDot w features1 features2
  let norm1 := weightedNormSq w features1
  let norm2 := weightedNormSq w features2
  if norm1 * norm2 = 0 then SimValue.nan
  else SimValue.sqrtVal (min ((max dotProduct 0) ^ 2 / (norm1 * norm2)) 1)

/-- The sum of squared differences inside
`MusicAnalysisService.calculateEuclideanDistance` (over the four primary
perceptual features of the normalized profiles). -/
def calculateEuclideanDistanceSq (profile1 profile2 : AudioFeatures) : ℚ :=
  let features1 := normalizeFeatures profile1
  let features2 := normalizeFeatures profile2
  (features1.valence - features2.valence) ^ 2 +
  (features1.energy - features2.energy) ^ 2 +
  (features1.danceability - features2.danceability) ^ 2 +
  (features1.acousticness - features2.acousticness) ^ 2

/-- `MusicAnalysisService.calculateEuclideanDistance`: the square root of the
sum of squared differences. -/
noncomputable def calculateEuclideanDistance (profile1 profile2 : AudioFeatures) : ℝ :=
  Real.sqrt ((calculateEuclideanDistanceSq profile1 profile2 : ℚ) : ℝ)

/-- `MusicAnalysisService.calculateConfidence`:
`Math.max(0, 1 - distance)`. -/
noncomputable def calculateConfidence (profile features : AudioFeatures) : ℝ :=
  max 0 (1 - calculateEuclideanDistance profile features)

/-! ## Shared helper lemmas -/

/-- The weighted dot product is symmetric in its two feature arguments. -/
theorem weightedDot_comm (w a b : NormalizedFeatures) :
    weightedDot w a b = weightedDot w b a := by
  unfold weightedDot
  ring

/-- `adjustWeight` with the fixed learning rate `0.3` is the identity on a
field exactly when the past pattern already agrees with the base weight. -/
theorem adjustWeight_fixed_iff (b p : ℚ) : adjustWeight b p 0.3 = b ↔ p = b := by
  unfold adjustWeight
  constructor
  · intro h
    have h2 : (p - b) * 0.3 = 0 := by linarith
    rcases mul_eq_zero.mp h2 with h3 | h3
    · linarith
    · norm_num at h3
  · intro h
    rw [h]
    ring

/-! ## Claim C1 — neutral context weights are not a no-op

`applyContextWeights` multiplies each bounded field by `1 + weight * 0.5`,
which at the neutral weight `0.5` is the factor `1.25`, not `1`.  The claim
fails; the weights that actually leave a profile unchanged are the all-zero
bounded weights with `tempoModifier = 1`. -/

/-- C1 counterexample: for the profile with `valence = 0.4` and the neutral
weights (all four bounded fields `0.5`, `tempoModifier = 1`), the weighted
valence is `clamp(0.4 * 1.25, 0, 1) = 0.5 ≠ 0.4`, so neutral weights are not
a no-op. -/
theorem applyContextWeights_neutral_cex :
    (applyContextWeights ⟨0.4, 0.7, 0.6, 0.2, 0.1, 0.2, 0.1, 120, -5, 1, 4, 4⟩
        ⟨0.5, 0.5, 0.5, 0.5, 1⟩).toAudioFeatures.valence ≠
      (⟨0.4, 0.7, 0.6, 0.2, 0.1, 0.2, 0.1, 120, -5, 1, 4, 4⟩ : AudioFeatures).valence := by
  norm_num [applyContextWeights, clamp]

/-- C1 (amended): the no-op `ContextWeights` are the all-zero bounded weights
with `tempoModifier = 1` — for those, `applyContextWeights` returns the
profile unchanged on every audio-feature field whenever the four bounded
fields lie in `[0,1]`.  (The neutral `0.5` weights instead scale each bounded
field by `1.25` before clamping, see the counterexample.) -/
theorem applyContextWeights_zero_weights_noop (profile : AudioFeatures)
    (hv0 : 0 ≤ profile.valence) (hv1 : profile.valence ≤ 1)
    (he0 : 0 ≤ profile.energy) (he1 : profile.energy ≤ 1)
    (hd0 : 0 ≤ profile.danceability) (hd1 : profile.danceability ≤ 1)
    (ha0 : 0 ≤ profile.acousticness) (ha1 : profile.acousticness ≤ 1) :
    (applyContextWeights profile ⟨0, 0, 0, 0, 1⟩).toAudioFeatures = profile := by
  ext <;> simp [applyContextWeights, clamp]
  · rw [max_eq_left hv0, min_eq_left hv1]
  · rw [max_eq_left he0, min_eq_left he1]
  · rw [max_eq_left hd0, min_eq_left hd1]
  · rw [max_eq_left ha0, min_eq_left ha1]

/-- C1 witness: the zero weights leave a concrete in-range profile
unchanged. -/
theorem applyContextWeights_zero_weights_noop_witness :
    (applyContextWeights ⟨0.4, 0.7, 0.6, 0.2, 0.1, 0.2, 0.1, 120, -5, 1, 4, 4⟩
        ⟨0, 0, 0, 0, 1⟩).toAudioFeatures =
      ⟨0.4, 0.7, 0.6, 0.2, 0.1, 0.2, 0.1, 120, -5, 1, 4, 4⟩ :=
  applyContextWeights_zero_weights_noop _ (by norm_num) (by norm_num) (by norm_num)
    (by norm_num) (by norm_num) (by norm_num) (by norm_num) (by norm_num)

/-! ## Claim C2 — the learning step adjusts all five fields

The `personalizedWeights` record built by `applyIndividualLearning` passes
every field — including `tempoModifier` and `acousticness` — through
`adjustWeight` with learning rate `0.3`; nothing passes through unchanged
unless the past pattern already agrees with the base weight. -/

/-- C2 counterexample: with base `tempoModifier = 1` and past pattern
`tempoModifier = 2` the adjusted value is `1.3 ≠ 1`, and with base
`acousticness = 0.2` and past `0.7` the adjusted value is `0.35 ≠ 0.2`:
neither field passes through unchanged. -/
theorem personalizedWeights_moves_tempo_acousticness_cex :
    (personalizedWeights ⟨0.5, 0.5, 0.5, 0.5, 1⟩ ⟨0.5, 0.5, 0.5, 0.5, 2⟩).tempoModifier ≠
        (⟨0.5, 0.5, 0.5, 0.5, 1⟩ : ContextWeights).tempoModifier ∧
      (personalizedWeights ⟨0.5, 0.5, 0.5, 0.2, 1⟩ ⟨0.5, 0.5, 0.5, 0.7, 1⟩).acousticness ≠
        (⟨0.5, 0.5, 0.5, 0.2, 1⟩ : ContextWeights).acousticness := by
  constructor <;> norm_num [personalizedWeights, adjustWeight]

/-- C2 (amended): the learning step moves all five fields — valence, energy,
danceability, acousticness and tempoModifier alike — toward the past context
by `adjusted = base + (past - base) * 0.3`; in particular `tempoModifier`
and `acousticness` are left unchanged only when the past pattern agrees with
the base weights on them. -/
theorem personalizedWeights_adjusts_all_five (b p : ContextWeights) :
    (personalizedWeights b p).valence = b.valence + (p.valence - b.valence) * 0.3 ∧
    (personalizedWeights b p).energy = b.energy + (p.energy - b.energy) * 0.3 ∧
    (personalizedWeights b p).danceability =
      b.danceability + (p.danceability - b.danceability) * 0.3 ∧
    (personalizedWeights b p).acousticness =
      b.acousticness + (p.acousticness - b.acousticness) * 0.3 ∧
    (personalizedWeights b p).tempoModifier =
      b.tempoModifier + (p.tempoModifier - b.tempoModifier) * 0.3 ∧
    ((personalizedWeights b p).acousticness = b.acousticness ↔
      p.acousticness = b.acousticness) ∧
    ((personalizedWeights b p).tempoModifier = b.tempoModifier ↔
      p.tempoModifier = b.tempoModifier) :=
  ⟨rfl, rfl, rfl, rfl, rfl, adjustWeight_fixed_iff _ _, adjustWeight_fixed_iff _ _⟩

/-! ## Claim C9 — a zero context-weight field falls back to the default

`contextWeights?.field || default` treats `0` as absent (JavaScript falsy),
so a zero field gets the built-in default weight and no caller can give any
of the four context features zero influence. -/

/-- C9: a supplied context-weight field equal to `0` is treated like an
absent field (the per-feature weight falls back to the defaults 0.8 / 0.8 /
0.7 / 0.6), the four effective weights are never `0`, and a `ContextWeights`
with all four bounded fields `0` makes `calculateSimilarity` behave exactly
as if no context weights were supplied. -/
theorem featureWeights_zero_falls_back (cw : ContextWeights) :
    (cw.valence = 0 → (featureWeights (some cw)).valence = 0.8) ∧
    (cw.energy = 0 → (featureWeights (some cw)).energy = 0.8) ∧
    (cw.danceability = 0 → (featureWeights (some cw)).danceability = 0.7) ∧
    (cw.acousticness = 0 → (featureWeights (some cw)).acousticness = 0.6) ∧
    (featureWeights (some cw)).valence ≠ 0 ∧
    (featureWeights (some cw)).energy ≠ 0 ∧
    (featureWeights (some cw)).danceability ≠ 0 ∧
    (featureWeights (some cw)).acousticness ≠ 0 ∧
    (cw.valence = 0 → cw.energy = 0 → cw.danceability = 0 → cw.acousticness = 0 →
      featureWeights (some cw) = featureWeights none ∧
        ∀ p1 p2 : AudioFeatures,
          calculateSimilarity p1 p2 (some cw) = calculateSimilarity p1 p2 none) := by
  have hne : ∀ x d : ℚ, d ≠ 0 → jsOrDefault x d ≠ 0 := by
    intro x d hd
    unfold jsOrDefault
    split_ifs with h
    · exact hd
    · exact h
  refine ⟨?_, ?_, ?_, ?_, ?_, ?_, ?_, ?_, ?_⟩
  · intro h
    simp [featureWeights, jsOrDefault, h]
  · intro h
    simp [featureWeights, jsOrDefault, h]
  · intro h
    simp [featureWeights, jsOrDefault, h]
  · intro h
    simp [featureWeights, jsOrDefault, h]
  · exact hne _ _ (by norm_num)
  · exact hne _ _ (by norm_num)
  · exact hne _ _ (by norm_num)
  · exact hne _ _ (by norm_num)
  · intro hv he hd ha
    have hfw : featureWeights (some cw) = featureWeights none := by
      simp [featureWeights, jsOrDefault, hv, he, hd, ha]
    refine ⟨hfw, ?_⟩
    intro p1 p2
    unfold calculateSimilarity
    rw [hfw]

/-! ## Claim C10 — similarity without context weights is symmetric -/

/-- C10: called without explicit context weights, `calculateSimilarity` is
symmetric in its two feature arguments: the dot product is commutative and
the two norms merely swap roles. -/
theorem calculateSimilarity_symm (a b : AudioFeatures) :
    calculateSimilarity a b none = calculateSimilarity b a none := by
  simp only [calculateSimilarity]
  rw [weightedDot_comm]
  rw [mul_comm (weightedNormSq (featureWeights none) (normalizeFeatures a))
    (weightedNormSq (featureWeights none) (normalizeFeatures b))]

/-- The weighted norm accumulator written as a sum of eleven squares. -/
theorem weightedNormSq_eq_sum_squares (w a : NormalizedFeatures) :
    weightedNormSq w a =
      (w.valence * a.valence) ^ 2 + (w.energy * a.energy) ^ 2 +
      (w.danceability * a.danceability) ^ 2 + (w.acousticness * a.acousticness) ^ 2 +
      (w.instrumentalness * a.instrumentalness) ^ 2 + (w.liveness * a.liveness) ^ 2 +
      (w.speechiness * a.speechiness) ^ 2 + (w.tempo * a.tempo) ^ 2 +
      (w.loudness * a.loudness) ^ 2 + (w.mode * a.mode) ^ 2 + (w.key * a.key) ^ 2 := by
  unfold weightedNormSq weightedDot
  ring

/-- A weighted norm accumulator is nonnegative (it is a sum of squares). -/
theorem weightedNormSq_nonneg (w a : NormalizedFeatures) : 0 ≤ weightedNormSq w a := by
  rw [weightedNormSq_eq_sum_squares]
  positivity

/-- Justification of the NaN case of the model: when one weighted norm
vanishes, every weighted feature of that side is zero, so the dot product is
zero as well — the JavaScript division is `0/0 = NaN`, never `x/0` with
`x ≠ 0`. -/
theorem weightedDot_eq_zero_of_normSq_eq_zero (w a b : NormalizedFeatures)
    (h : weightedNormSq w a = 0) : weightedDot w a b = 0 := by
  rw [weightedNormSq_eq_sum_squares] at h
  have q1 := sq_nonneg (w.valence * a.valence)
  have q2 := sq_nonneg (w.energy * a.energy)
  have q3 := sq_nonneg (w.danceability * a.danceability)
  have q4 := sq_nonneg (w.acousticness * a.acousticness)
  have q5 := sq_nonneg (w.instrumentalness * a.instrumentalness)
  have q6 := sq_nonneg (w.liveness * a.liveness)
  have q7 := sq_nonneg (w.speechiness * a.speechiness)
  have q8 := sq_nonneg (w.tempo * a.tempo)
  have q9 := sq_nonneg (w.loudness * a.loudness)
  have q10 := sq_nonneg (w.mode * a.mode)
  have q11 := sq_nonneg (w.key * a.key)
  have e1 : w.valence * a.valence = 0 := sq_eq_zero_iff.mp (by linarith)
  have e2 : w.energy * a.energy = 0 := sq_eq_zero_iff.mp (by linarith)
  have e3 : w.danceability * a.danceability = 0 := sq_eq_zero_iff.mp (by linarith)
  have e4 : w.acousticness * a.acousticness = 0 := sq_eq_zero_iff.mp (by linarith)
  have e5 : w.instrumentalness * a.instrumentalness = 0 := sq_eq_zero_iff.mp (by linarith)
  have e6 : w.liveness * a.liveness = 0 := sq_eq_zero_iff.mp (by linarith)
  have e7 : w.speechiness * a.speechiness = 0 := sq_eq_zero_iff.mp (by linarith)
  have e8 : w.tempo * a.tempo = 0 := sq_eq_zero_iff.mp (by linarith)
  have e9 : w.loudness * a.loudness = 0 := sq_eq_zero_iff.mp (by linarith)
  have e10 : w.mode * a.mode = 0 := sq_eq_zero_iff.mp (by linarith)
  have e11 : w.key * a.key = 0 := sq_eq_zero_iff.mp (by linarith)
  unfold weightedDot
  rw [e1, e2, e3, e4, e5, e6, e7, e8, e9, e10, e11]
  ring

/-! ## Claim C3 — zero-norm similarity is NaN, not 0

There is no zero-norm guard in `calculateSimilarity`: when either weighted
norm is zero the JavaScript computation divides `0` by `0` and `clamp`
propagates the resulting NaN.  The claim (similarity is `0`, never NaN)
fails; when both norms are nonzero the clamped result is a real number in
`[0,1]`. -/

/-- C3 counterexample: for the all-zero feature vector (whose normalized
features, hence weighted norm, are all zero) against an ordinary candidate,
`calculateSimilarity` returns NaN (interpreted as no real number at all),
not the real number `0` the claim requires. -/
theorem calculateSimilarity_zero_norm_nan_cex :
    (calculateSimilarity ⟨0, 0, 0, 0, 0, 0, 0, 0, -60, 0, 0, 4⟩
        ⟨0.75, 0.65, 0.55, 0.25, 0.1, 0.2, 0.1, 125, -6, 1, 4, 4⟩ none).toReal = none := by
  have hz : weightedNormSq (featureWeights none)
      (normalizeFeatures ⟨0, 0, 0, 0, 0, 0, 0, 0, -60, 0, 0, 4⟩) = 0 := by
    norm_num [weightedNormSq, weightedDot, normalizeFeatures]
  have h : calculateSimilarity ⟨0, 0, 0, 0, 0, 0, 0, 0, -60, 0, 0, 4⟩
      ⟨0.75, 0.65, 0.55, 0.25, 0.1, 0.2, 0.1, 125, -6, 1, 4, 4⟩ none = SimValue.nan := by
    simp only [calculateSimilarity]
    rw [if_pos (by rw [hz, zero_mul])]
  rw [h]
  rfl

/-- C3 (amended): when either weighted norm is zero the similarity is NaN
(the JavaScript `0/0`), not `0`; when both weighted norms are nonzero the
similarity is a real number in `[0,1]`. -/
theorem calculateSimilarity_nan_or_bounded (p1 p2 : AudioFeatures)
    (cw : Option ContextWeights) :
    (weightedNormSq (featureWeights cw) (normalizeFeatures p1) *
        weightedNormSq (featureWeights cw) (normalizeFeatures p2) = 0 →
      calculateSimilarity p1 p2 cw = SimValue.nan) ∧
    (weightedNormSq (featureWeights cw) (normalizeFeatures p1) *
        weightedNormSq (featureWeights cw) (normalizeFeatures p2) ≠ 0 →
      ∃ r : ℝ, (calculateSimilarity p1 p2 cw).toReal = some r ∧ 0 ≤ r ∧ r ≤ 1) := by
  constructor
  · intro h
    simp only [calculateSimilarity]
    rw [if_pos h]
  · intro h
    have hn1 := weightedNormSq_nonneg (featureWeights cw) (normalizeFeatures p1)
    have hn2 := weightedNormSq_nonneg (featureWeights cw) (normalizeFeatures p2)
    have hpos : 0 < weightedNormSq (featureWeights cw) (normalizeFeatures p1) *
        weightedNormSq (featureWeights cw) (normalizeFeatures p2) :=
      lt_of_le_of_ne (mul_nonneg hn1 hn2) (Ne.symm h)
    simp only [calculateSimilarity]
    rw [if_neg h]
    refine ⟨Real.sqrt
      ((min ((max (weightedDot (featureWeights cw) (normalizeFeatures p1)
          (normalizeFeatures p2)) 0) ^ 2 /
        (weightedNormSq (featureWeights cw) (normalizeFeatures p1) *
          weightedNormSq (featureWeights cw) (normalizeFeatures p2))) 1 : ℚ) : ℝ),
      rfl, Real.sqrt_nonneg _, ?_⟩
    rw [Real.sqrt_le_one]
    have hq : (min ((max (weightedDot (featureWeights cw) (normalizeFeatures p1)
        (normalizeFeatures p2)) 0) ^ 2 /
      (weightedNormSq (featureWeights cw) (normalizeFeatures p1) *
        weightedNormSq (featureWeights cw) (normalizeFeatures p2))) 1 : ℚ) ≤ 1 :=
      min_le_right _ 1
    exact_mod_cast hq

/-! ## Claim C8 — self-similarity is 1 and identical features give confidence 1 -/

/-- The tempo weight is `0.5` whatever context weights are supplied. -/
theorem featureWeights_tempo (cw : Option ContextWeights) :
    (featureWeights cw).tempo = 0.5 := by
  cases cw <;> rfl

/-- Domain of a valid `AudioFeatureVector` per the data model: the seven
bounded features in `[0,1]`, a positive BPM tempo, loudness in `[-60,0]`,
`mode ∈ {0,1}`, `key ∈ [0,11]`, `timeSignature ∈ {3,...,7}`. -/
def ValidFeatures (f : AudioFeatures) : Prop :=
  0 ≤ f.valence ∧ f.valence ≤ 1 ∧
  0 ≤ f.energy ∧ f.energy ≤ 1 ∧
  0 ≤ f.danceability ∧ f.danceability ≤ 1 ∧
  0 ≤ f.acousticness ∧ f.acousticness ≤ 1 ∧
  0 ≤ f.instrumentalness ∧ f.instrumentalness ≤ 1 ∧
  0 ≤ f.liveness ∧ f.liveness ≤ 1 ∧
  0 ≤ f.speechiness ∧ f.speechiness ≤ 1 ∧
  0 < f.tempo ∧
  -60 ≤ f.loudness ∧ f.loudness ≤ 0 ∧
  (f.mode = 0 ∨ f.mode = 1) ∧
  0 ≤ f.key ∧ f.key ≤ 11 ∧
  (f.timeSignature = 3 ∨ f.timeSignature = 4 ∨ f.timeSignature = 5 ∨
    f.timeSignature = 6 ∨ f.timeSignature = 7)

/-- C8: for every valid feature vector `x` (and any or no context weights),
`calculateSimilarity x x` is exactly the real number `1`, and the confidence
of a candidate whose features equal the profile is `1` (Euclidean distance
`0` over the four primary perceptual features). -/
theorem calculateSimilarity_self_eq_one (x : AudioFeatures) (cw : Option ContextWeights)
    (hx : ValidFeatures x) :
    (calculateSimilarity x x cw).toReal = some 1 ∧ calculateConfidence x x = 1 := by
  obtain ⟨_, _, _, _, _, _, _, _, _, _, _, _, _, _, htempo, hx'⟩ := hx
  constructor
  · have hterm : 0 < ((featureWeights cw).tempo * (normalizeFeatures x).tempo) ^ 2 := by
      have h1 : (0 : ℚ) < (featureWeights cw).tempo * (normalizeFeatures x).tempo := by
        rw [featureWeights_tempo]
        have h2 : (0 : ℚ) < x.tempo / 200 := div_pos htempo (by norm_num)
        have h3 : (normalizeFeatures x).tempo = x.tempo / 200 := rfl
        rw [h3]
        nlinarith
      positivity
    have hN : 0 < weightedNormSq (featureWeights cw) (normalizeFeatures x) := by
      rw [weightedNormSq_eq_sum_squares]
      have s1 := sq_nonneg ((featureWeights cw).valence * (normalizeFeatures x).valence)
      have s2 := sq_nonneg ((featureWeights cw).energy * (normalizeFeatures x).energy)
      have s3 := sq_nonneg
        ((featureWeights cw).danceability * (normalizeFeatures x).danceability)
      have s4 := sq_nonneg
        ((featureWeights cw).acousticness * (normalizeFeatures x).acousticness)
      have s5 := sq_nonneg
        ((featureWeights cw).instrumentalness * (normalizeFeatures x).instrumentalness)
      have s6 := sq_nonneg ((featureWeights cw).liveness * (normalizeFeatures x).liveness)
      have s7 := sq_nonneg
        ((featureWeights cw).speechiness * (normalizeFeatures x).speechiness)
      have s9 := sq_nonneg ((featureWeights cw).loudness * (normalizeFeatures x).loudness)
      have s10 := sq_nonneg ((featureWeights cw).mode * (normalizeFeatures x).mode)
      have s11 := sq_nonneg ((featureWeights cw).key * (normalizeFeatures x).key)
      linarith
    have hdot : weightedDot (featureWeights cw) (normalizeFeatures x) (normalizeFeatures x) =
        weightedNormSq (featureWeights cw) (normalizeFeatures x) := rfl
    have hNN : weightedNormSq (featureWeights cw) (normalizeFeatures x) *
        weightedNormSq (featureWeights cw) (normalizeFeatures x) ≠ 0 :=
      ne_of_gt (mul_pos hN hN)
    simp only [calculateSimilarity]
    rw [if_neg hNN, hdot,
      max_eq_left (le_of_lt hN), sq,
      div_self hNN, min_self]
    simp only [SimValue.toReal]
    norm_num
  · have hd : calculateEuclideanDistanceSq x x = 0 := by
      simp [calculateEuclideanDistanceSq]
    unfold calculateConfidence calculateEuclideanDistance
    rw [hd]
    norm_num

/-- C8 witness: a concrete valid vector has self-similarity `1` and
confidence `1`. -/
theorem calculateSimilarity_self_eq_one_witness :
    (calculateSimilarity ⟨0.8, 0.7, 0.6, 0.2, 0.1, 0.2, 0.1, 128, -5, 1, 4, 4⟩
        ⟨0.8, 0.7, 0.6, 0.2, 0.1, 0.2, 0.1, 128, -5, 1, 4, 4⟩ none).toReal = some 1 ∧
      calculateConfidence ⟨0.8, 0.7, 0.6, 0.2, 0.1, 0.2, 0.1, 128, -5, 1, 4, 4⟩
        ⟨0.8, 0.7, 0.6, 0.2, 0.1, 0.2, 0.1, 128, -5, 1, 4, 4⟩ = 1 :=
  calculateSimilarity_self_eq_one ⟨0.8, 0.7, 0.6, 0.2, 0.1, 0.2, 0.1, 128, -5, 1, 4, 4⟩
    none (by norm_num [ValidFeatures])

/-! ## Claim C4 — reference profile: means and the `mode || 1` default

`createReferenceProfile` averages the nine continuous fields and takes the
first-encounter-tie-broken statistical mode of the three categorical ones —
except that the trailing JavaScript `mode || 1` also replaces a *computed*
mode of `0` (a minor-mode majority, or the key C) by `1`. -/

/-- `MusicAnalysisService.average`: `reduce((sum, val) => sum + val, 0)`
divided by the length. -/
def average (values : List ℚ) : ℚ :=
  values.foldl (· + ·) 0 / (values.length : ℚ)

/-- Key order of the frequency `Map` built by `MusicAnalysisService.mode`:
a JavaScript `Map` iterates in key-insertion order, i.e. the distinct values
in order of first occurrence. -/
def mapKeys : List ℚ → List ℚ
  | [] => []
  | v :: vs => v :: (mapKeys vs).filter (fun k => decide (k ≠ v))

/-- The `frequency.forEach` loop of `MusicAnalysisService.mode`: scan the
keys in insertion order and replace the best `(mode, maxCount)` pair whenever
a strictly larger count appears. -/
def modeLoop (values : List ℚ) : List ℚ → ℚ × ℕ → ℚ × ℕ
  | [], best => best
  | k :: ks, best =>
      modeLoop values ks (if best.2 < values.count k then (k, values.count k) else best)

/-- `MusicAnalysisService.mode`: the strict-argmax scan initialised with
`(values[0], 0)`, followed by the JavaScript `mode || 1` default (which
replaces a computed `0` by `1` as well — `0` is falsy). -/
def modeJs (values : List ℚ) : ℚ :=
  let m := (modeLoop values (mapKeys values) (values.headD 0, 0)).1
  if m = 0 then 1 else m

/-- `MusicAnalysisService.createReferenceProfile`: arithmetic mean for the
nine continuous fields, `modeJs` for the three categorical ones; the empty
input throws (`none` here). -/
def createReferenceProfile (audioFeatures : List AudioFeatures) : Option AudioFeatures :=
  if audioFeatures.length = 0 then none
  else some
    { valence := average (audioFeatures.map AudioFeatures.valence)
      energy := average (audioFeatures.map AudioFeatures.energy)
      danceability := average (audioFeatures.map AudioFeatures.danceability)
      acousticness := average (audioFeatures.map AudioFeatures.acousticness)
      instrumentalness := average (audioFeatures.map AudioFeatures.instrumentalness)
      liveness := average (audioFeatures.map AudioFeatures.liveness)
      speechiness := average (audioFeatures.map AudioFeatures.speechiness)
      tempo := average (audioFeatures.map AudioFeatures.tempo)
      loudness := average (audioFeatures.map AudioFeatures.loudness)
      mode := modeJs (audioFeatures.map AudioFeatures.mode)
      key := modeJs (audioFeatures.map AudioFeatures.key)
      timeSignature := modeJs (audioFeatures.map AudioFeatures.timeSignature) }

/-- Modelled from the spec: the statistical mode with ties broken by the
first-encountered value — the first element of the list whose occurrence
count is maximal. -/
def specStatMode (values : List ℚ) : Option ℚ :=
  values.find? (fun v => values.all (fun w => decide (values.count w ≤ values.count v)))

/-- The reduce of `average` is the list sum. -/
theorem average_eq_sum_div (values : List ℚ) :
    average values = values.sum / (values.length : ℚ) := by
  unfold average
  rw [List.sum_eq_foldl]

/-- A nonempty list has an element of maximal image. -/
theorem exists_max_image (f : ℚ → ℕ) (l : List ℚ) (h : l ≠ []) :
    ∃ v ∈ l, ∀ w ∈ l, f w ≤ f v := by
  induction l with
  | nil => exact absurd rfl h
  | cons a l ih =>
    cases l with
    | nil =>
      refine ⟨a, List.mem_singleton_self a, ?_⟩
      intro w hw
      rw [List.mem_singleton] at hw
      rw [hw]
    | cons b l' =>
      obtain ⟨v, hv, hmax⟩ := ih (List.cons_ne_nil b l')
      by_cases hav : f v ≤ f a
      · refine ⟨a, List.mem_cons_self a _, ?_⟩
        intro w hw
        rcases List.mem_cons.mp hw with hw | hw
        · rw [hw]
        · exact le_trans (hmax w hw) hav
      · refine ⟨v, List.mem_cons_of_mem a hv, ?_⟩
        intro w hw
        rcases List.mem_cons.mp hw with hw | hw
        · rw [hw]; exact le_of_not_le hav
        · exact hmax w hw

/-- The scan leaves its accumulator alone when no key beats it. -/
theorem modeLoop_of_le (values ks : List ℚ) (best : ℚ × ℕ)
    (h : ∀ k ∈ ks, values.count k ≤ best.2) : modeLoop values ks best = best := by
  induction ks with
  | nil => rfl
  | cons k ks ih =>
    simp only [modeLoop]
    rw [if_neg (not_lt_of_le (h k (List.mem_cons_self k ks)))]
    exact ih fun k' hk' => h k' (List.mem_cons_of_mem k hk')

/-- The scan returns the first key of maximal count: every earlier key has a
strictly smaller count, every later key a no-larger one, and the initial
accumulator is beaten by the maximal key. -/
theorem modeLoop_firstmax (values : List ℚ) (m : ℚ) (l₂ : List ℚ)
    (hl₂ : ∀ k ∈ l₂, values.count k ≤ values.count m) :
    ∀ (l₁ : List ℚ) (best : ℚ × ℕ), best.2 < values.count m →
      (∀ k ∈ l₁, values.count k < values.count m) →
      modeLoop values (l₁ ++ m :: l₂) best = (m, values.count m) := by
  intro l₁
  induction l₁ with
  | nil =>
    intro best hbeat _
    simp only [List.nil_append, modeLoop]
    rw [if_pos hbeat]
    exact modeLoop_of_le values l₂ (m, values.count m) hl₂
  | cons a l₁ ih =>
    intro best hbeat hl₁
    simp only [List.cons_append, modeLoop]
    have ha : values.count a < values.count m := hl₁ a (List.mem_cons_self a l₁)
    have hl₁' : ∀ k ∈ l₁, values.count k < values.count m :=
      fun k hk => hl₁ k (List.mem_cons_of_mem a hk)
    split_ifs with hup
    · exact ih (a, values.count a) ha hl₁'
    · exact ih best hbeat hl₁'

/-- Dropping from the key list a value whose count cannot beat the
accumulator does not change the scan. -/
theorem modeLoop_filter_ne (values : List ℚ) (v : ℚ) (ks : List ℚ) (best : ℚ × ℕ)
    (h : values.count v ≤ best.2) :
    modeLoop values (ks.filter (fun k => decide (k ≠ v))) best = modeLoop values ks best := by
  induction ks generalizing best with
  | nil => rfl
  | cons k ks ih =>
    rw [List.filter_cons]
    by_cases hk : k = v
    · subst hk
      rw [if_neg (by simp)]
      have hcount : ¬ best.2 < values.count k := not_lt_of_le h
      conv =>
        rhs
        rw [modeLoop]
      rw [if_neg hcount]
      exact ih best h
    · rw [if_pos (by simp [hk])]
      simp only [modeLoop]
      split_ifs with hup
      · exact ih (k, values.count k) (le_trans h (le_of_lt hup))
      · exact ih best h

/-- Scanning the deduplicated key list is the same as scanning the raw value
list: a later duplicate can never strictly beat the accumulator again. -/
theorem modeLoop_mapKeys (values : List ℚ) (vs : List ℚ) (best : ℚ × ℕ) :
    modeLoop values (mapKeys vs) best = modeLoop values vs best := by
  induction vs generalizing best with
  | nil => rfl
  | cons v vs ih =>
    simp only [mapKeys, modeLoop]
    split_ifs with hup
    · rw [modeLoop_filter_ne values v (mapKeys vs) (v, values.count v) (le_refl _)]
      exact ih (v, values.count v)
    · rw [modeLoop_filter_ne values v (mapKeys vs) best (le_of_not_lt hup)]
      exact ih best

/-- Characterisation of `modeJs` against the spec's statistical mode: on a
nonempty list, `specStatMode` returns the first value of maximal count, and
`modeJs` returns exactly that value unless it is `0`, in which case the
JavaScript `|| 1` default turns it into `1`. -/
theorem modeJs_spec (values : List ℚ) (h : values ≠ []) :
    ∃ m, specStatMode values = some m ∧ modeJs values = if m = 0 then 1 else m := by
  obtain ⟨v, hv, hmax⟩ :=
    exists_max_image (fun w => values.count w) values h
  have hfind : (values.find?
      (fun v => values.all (fun w => decide (values.count w ≤ values.count v)))).isSome := by
    rw [List.find?_isSome]
    refine ⟨v, hv, ?_⟩
    rw [List.all_eq_true]
    intro w hw
    exact decide_eq_true (hmax w hw)
  obtain ⟨m, hm⟩ := Option.isSome_iff_exists.mp hfind
  refine ⟨m, hm, ?_⟩
  obtain ⟨hpm, as, bs, hsplit, hfail⟩ := List.find?_eq_some.mp hm
  rw [List.all_eq_true] at hpm
  have hmmax : ∀ w ∈ values, values.count w ≤ values.count m := by
    intro w hw
    exact of_decide_eq_true (hpm w hw)
  have hl₁ : ∀ k ∈ as, values.count k < values.count m := by
    intro k hk
    have hfk := hfail k hk
    rw [Bool.not_eq_true'] at hfk
    have : ¬ ∀ w ∈ values, values.count w ≤ values.count k := by
      intro hall
      rw [← Bool.not_eq_true, List.all_eq_true] at hfk
      exact hfk fun w hw => decide_eq_true (hall w hw)
    push_neg at this
    obtain ⟨w, hw, hlt⟩ := this
    exact lt_of_lt_of_le hlt (hmmax w hw)
  have hl₂ : ∀ k ∈ bs, values.count k ≤ values.count m := by
    intro k hk
    refine hmmax k ?_
    rw [hsplit]
    exact List.mem_append_right as (List.mem_cons_of_mem m hk)
  have hmem : m ∈ values := by
    rw [hsplit]
    exact List.mem_append_right as (List.mem_cons_self m bs)
  have hbeat : (0 : ℕ) < values.count m := List.count_pos_iff.mpr hmem
  subst hsplit
  unfold modeJs
  rw [modeLoop_mapKeys]
  rw [modeLoop_firstmax (as ++ m :: bs) m bs hl₂ as ((as ++ m :: bs).headD 0, 0) hbeat hl₁]

/-- C4 counterexample: a single reference track in the minor mode
(`mode = 0`, `key = 0`).  The statistical mode of the inputs is `0`, but the
built profile reports `mode = 1` (and `key = 1`): the JavaScript `mode || 1`
default replaces the computed `0`. -/
theorem createReferenceProfile_mode_zero_cex :
    Option.map AudioFeatures.mode
        (createReferenceProfile [⟨0.5, 0.5, 0.5, 0.5, 0.1, 0.2, 0.1, 120, -5, 0, 0, 4⟩]) =
      some 1 ∧
    specStatMode
        ([⟨0.5, 0.5, 0.5, 0.5, 0.1, 0.2, 0.1, 120, -5, 0, 0, 4⟩].map AudioFeatures.mode) =
      some 0 ∧
    (1 : ℚ) ≠ 0 := by
  refine ⟨?_, ?_, by norm_num⟩
  · rfl
  · rfl

/-- C4 (amended): for every nonempty input, the built profile's continuous
fields are the arithmetic means and its categorical fields are the
first-encounter-tie-broken statistical mode — except that a computed mode of
`0` is replaced by `1` (the `mode || 1` default). -/
theorem createReferenceProfile_mean_and_mode (l : List AudioFeatures) (h : l ≠ []) :
    ∃ p, createReferenceProfile l = some p ∧
      p.valence = (l.map AudioFeatures.valence).sum / (l.length : ℚ) ∧
      p.energy = (l.map AudioFeatures.energy).sum / (l.length : ℚ) ∧
      p.danceability = (l.map AudioFeatures.danceability).sum / (l.length : ℚ) ∧
      p.acousticness = (l.map AudioFeatures.acousticness).sum / (l.length : ℚ) ∧
      p.instrumentalness = (l.map AudioFeatures.instrumentalness).sum / (l.length : ℚ) ∧
      p.liveness = (l.map AudioFeatures.liveness).sum / (l.length : ℚ) ∧
      p.speechiness = (l.map AudioFeatures.speechiness).sum / (l.length : ℚ) ∧
      p.tempo = (l.map AudioFeatures.tempo).sum / (l.length : ℚ) ∧
      p.loudness = (l.map AudioFeatures.loudness).sum / (l.length : ℚ) ∧
      (∃ m, specStatMode (l.map AudioFeatures.mode) = some m ∧
        p.mode = if m = 0 then 1 else m) ∧
      (∃ m, specStatMode (l.map AudioFeatures.key) = some m ∧
        p.key = if m = 0 then 1 else m) ∧
      (∃ m, specStatMode (l.map AudioFeatures.timeSignature) = some m ∧
        p.timeSignature = if m = 0 then 1 else m) := by
  have hlen : l.length ≠ 0 := fun hlen => h (List.length_eq_zero.mp hlen)
  have hmap : ∀ f : AudioFeatures → ℚ, l.map f ≠ [] := by
    intro f hf
    exact h (List.map_eq_nil_iff.mp hf)
  have hmean : ∀ f : AudioFeatures → ℚ,
      average (l.map f) = (l.map f).sum / (l.length : ℚ) := by
    intro f
    rw [average_eq_sum_div, List.length_map]
  obtain ⟨m1, hm1, he1⟩ := modeJs_spec (l.map AudioFeatures.mode) (hmap _)
  obtain ⟨m2, hm2, he2⟩ := modeJs_spec (l.map AudioFeatures.key) (hmap _)
  obtain ⟨m3, hm3, he3⟩ := modeJs_spec (l.map AudioFeatures.timeSignature) (hmap _)
  refine ⟨{ valence := average (l.map AudioFeatures.valence)
            energy := average (l.map AudioFeatures.energy)
            danceability := average (l.map AudioFeatures.danceability)
            acousticness := average (l.map AudioFeatures.acousticness)
            instrumentalness := average (l.map AudioFeatures.instrumentalness)
            liveness := average (l.map AudioFeatures.liveness)
            speechiness := average (l.map AudioFeatures.speechiness)
            tempo := average (l.map AudioFeatures.tempo)
            loudness := average (l.map AudioFeatures.loudness)
            mode := modeJs (l.map AudioFeatures.mode)
            key := modeJs (l.map AudioFeatures.key)
            timeSignature := modeJs (l.map AudioFeatures.timeSignature) },
    ?_, hmean _, hmean _, hmean _, hmean _, hmean _, hmean _, hmean _, hmean _,
    hmean _, ⟨m1, hm1, he1⟩, ⟨m2, hm2, he2⟩, ⟨m3, hm3, he3⟩⟩
  unfold createReferenceProfile
  rw [if_neg hlen]

/-- C4 witness: the amended theorem applied to a concrete singleton input
(major mode, key 4): the profile exists, and its categorical fields come out
as the statistical mode (`1` and `4`, neither hitting the `|| 1` default). -/
theorem createReferenceProfile_mean_and_mode_witness :
    ∃ p, createReferenceProfile [⟨0.8, 0.7, 0.6, 0.2, 0.1, 0.2, 0.1, 128, -5, 1, 4, 4⟩]
        = some p ∧ p.mode = 1 ∧ p.key = 4 := by
  obtain ⟨p, hp, -, -, -, -, -, -, -, -, -, hmode, hkey, -⟩ :=
    createReferenceProfile_mean_and_mode
      [⟨0.8, 0.7, 0.6, 0.2, 0.1, 0.2, 0.1, 128, -5, 1, 4, 4⟩] (List.cons_ne_nil _ _)
  obtain ⟨m, hm, hpm⟩ := hmode
  obtain ⟨k, hk, hpk⟩ := hkey
  have hm1 : m = 1 := by
    have : specStatMode
        ([(⟨0.8, 0.7, 0.6, 0.2, 0.1, 0.2, 0.1, 128, -5, 1, 4, 4⟩ :
          AudioFeatures)].map AudioFeatures.mode) = some 1 := rfl
    rw [this] at hm
    exact (Option.some.inj hm).symm
  have hk4 : k = 4 := by
    have : specStatMode
        ([(⟨0.8, 0.7, 0.6, 0.2, 0.1, 0.2, 0.1, 128, -5, 1, 4, 4⟩ :
          AudioFeatures)].map AudioFeatures.key) = some 4 := rfl
    rw [this] at hk
    exact (Option.some.inj hk).symm
  subst hm1
  subst hk4
  norm_num at hpm hpk
  exact ⟨p, hp, hpm, hpk⟩

/-! ## Claim C5 — the personal-preference score

`calculatePersonalPreference` returns the neutral `0.5` for an empty
history, skips every non-positive feedback event, returns `0.5` when the
positive weight total is zero, and otherwise the weighted average of the
candidate's similarity to each positively-rated track.  The two numeric
helpers it calls — `calculateSimilarity` and
`calculateTimeWeight(t) = exp(-daysSince(t)/30)` — produce irrational reals,
so the embedding is parametric in them: `α` is any linear ordered field
(`α := ℝ` with the genuine similarity and exponential decay gives the exact
semantics; every theorem below holds for that instance). -/

/-- One record of the individual feedback history
(`RecommendationEngineService.FeedbackPattern`): `feedbackScore` is the
signed score (`1` upvote, `-1` downvote, `0` skip), `timestamp` the event
time in epoch milliseconds; `contextType` and `listenTime` are carried but
unused by the scoring. -/
structure FeedbackPattern where
  contextType : String
  audioFeatures : AudioFeatures
  feedbackScore : ℚ
  listenTime : ℚ
  timestamp : ℚ

/-- The loop body of `calculatePersonalPreference`: positive-score events
add `similarity * (score * timeWeight)` to the total and `score * timeWeight`
to the weight sum; all other events are skipped. -/
def ppStep {α : Type} [LinearOrderedField α]
    (sim : AudioFeatures → AudioFeatures → α) (timeWeight : ℚ → α)
    (trackFeatures : AudioFeatures) (acc : α × α) (feedback : FeedbackPattern) : α × α :=
  if 0 < feedback.feedbackScore then
    let similarity := sim trackFeatures feedback.audioFeatures
    let feedbackWeight := (feedback.feedbackScore : α) * timeWeight feedback.timestamp
    (acc.1 + similarity * feedbackWeight, acc.2 + feedbackWeight)
  else acc

/-- `RecommendationEngineService.calculatePersonalPreference`: neutral `1/2`
(the source's `0.5`) for an empty history, otherwise the accumulated
`totalScore / weightSum` when the weight sum is positive and `1/2` when it
is not. -/
def calculatePersonalPreference {α : Type} [LinearOrderedField α]
    [∀ a b : α, Decidable (a < b)]
    (sim : AudioFeatures → AudioFeatures → α) (timeWeight : ℚ → α)
    (trackFeatures : AudioFeatures) (feedbackHistory : List FeedbackPattern) : α :=
  if feedbackHistory.length = 0 then 1 / 2
  else
    let acc := feedbackHistory.foldl (ppStep sim timeWeight trackFeatures) (0, 0)
    if 0 < acc.2 then acc.1 / acc.2 else 1 / 2

/-- The positive-score part of a feedback history. -/
def positiveEvents (feedbackHistory : List FeedbackPattern) : List FeedbackPattern :=
  feedbackHistory.filter (fun fb => decide (0 < fb.feedbackScore))

/-- The weight total over the positive events:
`Σ score * timeWeight` (the spec's time-decay weights). -/
def posWeightSum {α : Type} [LinearOrderedField α] (timeWeight : ℚ → α)
    (feedbackHistory : List FeedbackPattern) : α :=
  ((positiveEvents feedbackHistory).map
    (fun fb => (fb.feedbackScore : α) * timeWeight fb.timestamp)).sum

/-- The score total over the positive events:
`Σ similarity * (score * timeWeight)`. -/
def posScoreSum {α : Type} [LinearOrderedField α]
    (sim : AudioFeatures → AudioFeatures → α) (timeWeight : ℚ → α)
    (trackFeatures : AudioFeatures) (feedbackHistory : List FeedbackPattern) : α :=
  ((positiveEvents feedbackHistory).map
    (fun fb => sim trackFeatures fb.audioFeatures *
      ((fb.feedbackScore : α) * timeWeight fb.timestamp))).sum

/-- The fold of `calculatePersonalPreference` computes exactly the two sums
over the positive events. -/
theorem foldl_ppStep {α : Type} [LinearOrderedField α]
    (sim : AudioFeatures → AudioFeatures → α) (timeWeight : ℚ → α)
    (trackFeatures : AudioFeatures) (feedbackHistory : List FeedbackPattern)
    (acc : α × α) :
    feedbackHistory.foldl (ppStep sim timeWeight trackFeatures) acc =
      (acc.1 + posScoreSum sim timeWeight trackFeatures feedbackHistory,
        acc.2 + posWeightSum timeWeight feedbackHistory) := by
  induction feedbackHistory generalizing acc with
  | nil =>
    simp [posScoreSum, posWeightSum, positiveEvents]
  | cons fb rest ih =>
    simp only [List.foldl_cons]
    rw [ih]
    by_cases h : 0 < fb.feedbackScore
    · simp only [ppStep, if_pos h, posScoreSum, posWeightSum, positiveEvents,
        List.filter_cons, decide_eq_true h, if_pos, List.map_cons, List.sum_cons]
      rw [Prod.mk.injEq]
      constructor <;> ring
    · simp only [ppStep, if_neg h, posScoreSum, posWeightSum, positiveEvents,
        List.filter_cons]
      rw [if_neg (by simpa using h)]

/-- Filtering the positive events is idempotent. -/
theorem positiveEvents_idem (feedbackHistory : List FeedbackPattern) :
    positiveEvents (positiveEvents feedbackHistory) = positiveEvents feedbackHistory := by
  unfold positiveEvents
  rw [List.filter_eq_self]
  intro fb hfb
  exact (List.mem_filter.mp hfb).2

/-- The positive score total only sees the positive events. -/
theorem posScoreSum_positiveEvents {α : Type} [LinearOrderedField α]
    (sim : AudioFeatures → AudioFeatures → α) (timeWeight : ℚ → α)
    (trackFeatures : AudioFeatures) (feedbackHistory : List FeedbackPattern) :
    posScoreSum sim timeWeight trackFeatures (positiveEvents feedbackHistory) =
      posScoreSum sim timeWeight trackFeatures feedbackHistory := by
  unfold posScoreSum
  rw [positiveEvents_idem]

/-- The positive weight total only sees the positive events. -/
theorem posWeightSum_positiveEvents {α : Type} [LinearOrderedField α]
    (timeWeight : ℚ → α) (feedbackHistory : List FeedbackPattern) :
    posWeightSum timeWeight (positiveEvents feedbackHistory) =
      posWeightSum timeWeight feedbackHistory := by
  unfold posWeightSum
  rw [positiveEvents_idem]

/-- C5: the personal-preference score is exactly `1/2` for an empty history;
exactly `1/2` whenever the history has no positive-score event; unchanged by
deleting the non-positive events (negative or zero feedback never moves it);
and, when a positive event exists (time weights are positive, as the
exponential decay is), the weighted average over the positive events of the
candidate's similarity to the event's features, weighted by
`score * timeWeight`. -/
theorem calculatePersonalPreference_spec {α : Type} [LinearOrderedField α]
    [∀ a b : α, Decidable (a < b)]
    (sim : AudioFeatures → AudioFeatures → α) (timeWeight : ℚ → α)
    (trackFeatures : AudioFeatures) (history : List FeedbackPattern)
    (htw : ∀ t, 0 < timeWeight t) :
    calculatePersonalPreference sim timeWeight trackFeatures [] = 1 / 2 ∧
    ((∀ fb ∈ history, fb.feedbackScore ≤ 0) →
      calculatePersonalPreference sim timeWeight trackFeatures history = 1 / 2) ∧
    calculatePersonalPreference sim timeWeight trackFeatures history =
      calculatePersonalPreference sim timeWeight trackFeatures (positiveEvents history) ∧
    ((∃ fb ∈ history, 0 < fb.feedbackScore) →
      calculatePersonalPreference sim timeWeight trackFeatures history =
        posScoreSum sim timeWeight trackFeatures history / posWeightSum timeWeight history) := by
  have hwpos : ∀ h' : List FeedbackPattern, (∃ fb ∈ h', 0 < fb.feedbackScore) →
      0 < posWeightSum timeWeight h' := by
    intro h' ⟨fb, hmem, hpos⟩
    apply List.sum_pos
    · intro x hx
      obtain ⟨fb', hfb', hfb'x⟩ := List.mem_map.mp hx
      have hp : 0 < fb'.feedbackScore := by
        have := (List.mem_filter.mp hfb').2
        simpa using this
      rw [← hfb'x]
      exact mul_pos (by exact_mod_cast hp) (htw fb'.timestamp)
    · intro hnil
      rw [List.map_eq_nil_iff] at hnil
      have : fb ∈ positiveEvents h' :=
        List.mem_filter.mpr ⟨hmem, decide_eq_true hpos⟩
      rw [hnil] at this
      exact absurd this (List.not_mem_nil fb)
  have hmain : ∀ h' : List FeedbackPattern, (∃ fb ∈ h', 0 < fb.feedbackScore) →
      calculatePersonalPreference sim timeWeight trackFeatures h' =
        posScoreSum sim timeWeight trackFeatures h' / posWeightSum timeWeight h' := by
    intro h' hex
    obtain ⟨fb, hmem, hpos⟩ := hex
    have hne : h' ≠ [] := by
      intro hnil
      rw [hnil] at hmem
      exact absurd hmem (List.not_mem_nil fb)
    have hlen : h'.length ≠ 0 := fun hl => hne (List.length_eq_zero.mp hl)
    unfold calculatePersonalPreference
    rw [if_neg hlen, foldl_ppStep]
    simp only [zero_add]
    rw [if_pos (hwpos h' ⟨fb, hmem, hpos⟩)]
  have hnopos : ∀ h' : List FeedbackPattern, (∀ fb ∈ h', fb.feedbackScore ≤ 0) →
      calculatePersonalPreference sim timeWeight trackFeatures h' = 1 / 2 := by
    intro h' hall
    by_cases hlen : h'.length = 0
    · unfold calculatePersonalPreference
      rw [if_pos hlen]
    · have hfilter : positiveEvents h' = [] := by
        unfold positiveEvents
        rw [List.filter_eq_nil_iff]
        intro fb hfb
        simpa using not_lt_of_le (hall fb hfb)
      unfold calculatePersonalPreference
      rw [if_neg hlen, foldl_ppStep]
      simp only [zero_add]
      rw [if_neg]
      rw [posWeightSum, hfilter]
      simp
  refine ⟨by unfold calculatePersonalPreference; rfl, hnopos history, ?_, hmain history⟩
  by_cases hex : ∃ fb ∈ history, 0 < fb.feedbackScore
  · obtain ⟨fb, hmem, hpos⟩ := hex
    have hexp : ∃ fb ∈ positiveEvents history, 0 < fb.feedbackScore :=
      ⟨fb, List.mem_filter.mpr ⟨hmem, decide_eq_true hpos⟩, hpos⟩
    rw [hmain history ⟨fb, hmem, hpos⟩, hmain (positiveEvents history) hexp]
    rw [posScoreSum_positiveEvents, posWeightSum_positiveEvents]
  · push_neg at hex
    rw [hnopos history hex]
    have hfilter : positiveEvents history = [] := by
      unfold positiveEvents
      rw [List.filter_eq_nil_iff]
      intro fb hfb
      simpa using not_lt_of_le (hex fb hfb)
    rw [hfilter]
    unfold calculatePersonalPreference
    rfl

/-- C5 witness: over `α := ℚ` with a constant similarity `1/2` and constant
time weight `1`, for a history with one upvote and one downvote, all four
conjuncts hold at the concrete inputs. -/
theorem calculatePersonalPreference_spec_witness :
    calculatePersonalPreference (fun _ _ => (1 / 2 : ℚ)) (fun _ => 1)
        ⟨0.8, 0.7, 0.6, 0.2, 0.1, 0.2, 0.1, 128, -5, 1, 4, 4⟩ [] = 1 / 2 ∧
    ((∀ fb ∈ [⟨"study", ⟨0.9, 0.8, 0.7, 0.1, 0.05, 0.15, 0.05, 132, -4, 1, 6, 4⟩, 1, 30, 0⟩,
        (⟨"gym", ⟨0.1, 0.2, 0.3, 0.9, 0.5, 0.1, 0.1, 80, -20, 0, 2, 3⟩, -1, 5, 0⟩ :
          FeedbackPattern)], fb.feedbackScore ≤ 0) →
      calculatePersonalPreference (fun _ _ => (1 / 2 : ℚ)) (fun _ => 1)
        ⟨0.8, 0.7, 0.6, 0.2, 0.1, 0.2, 0.1, 128, -5, 1, 4, 4⟩
        [⟨"study", ⟨0.9, 0.8, 0.7, 0.1, 0.05, 0.15, 0.05, 132, -4, 1, 6, 4⟩, 1, 30, 0⟩,
          ⟨"gym", ⟨0.1, 0.2, 0.3, 0.9, 0.5, 0.1, 0.1, 80, -20, 0, 2, 3⟩, -1, 5, 0⟩] = 1 / 2) ∧
    calculatePersonalPreference (fun _ _ => (1 / 2 : ℚ)) (fun _ => 1)
        ⟨0.8, 0.7, 0.6, 0.2, 0.1, 0.2, 0.1, 128, -5, 1, 4, 4⟩
        [⟨"study", ⟨0.9, 0.8, 0.7, 0.1, 0.05, 0.15, 0.05, 132, -4, 1, 6, 4⟩, 1, 30, 0⟩,
          ⟨"gym", ⟨0.1, 0.2, 0.3, 0.9, 0.5, 0.1, 0.1, 80, -20, 0, 2, 3⟩, -1, 5, 0⟩] =
      calculatePersonalPreference (fun _ _ => (1 / 2 : ℚ)) (fun _ => 1)
        ⟨0.8, 0.7, 0.6, 0.2, 0.1, 0.2, 0.1, 128, -5, 1, 4, 4⟩
        (positiveEvents
          [⟨"study", ⟨0.9, 0.8, 0.7, 0.1, 0.05, 0.15, 0.05, 132, -4, 1, 6, 4⟩, 1, 30, 0⟩,
            ⟨"gym", ⟨0.1, 0.2, 0.3, 0.9, 0.5, 0.1, 0.1, 80, -20, 0, 2, 3⟩, -1, 5, 0⟩]) ∧
    ((∃ fb ∈ [⟨"study", ⟨0.9, 0.8, 0.7, 0.1, 0.05, 0.15, 0.05, 132, -4, 1, 6, 4⟩, 1, 30, 0⟩,
        (⟨"gym", ⟨0.1, 0.2, 0.3, 0.9, 0.5, 0.1, 0.1, 80, -20, 0, 2, 3⟩, -1, 5, 0⟩ :
          FeedbackPattern)], 0 < fb.feedbackScore) →
      calculatePersonalPreference (fun _ _ => (1 / 2 : ℚ)) (fun _ => 1)
        ⟨0.8, 0.7, 0.6, 0.2, 0.1, 0.2, 0.1, 128, -5, 1, 4, 4⟩
        [⟨"study", ⟨0.9, 0.8, 0.7, 0.1, 0.05, 0.15, 0.05, 132, -4, 1, 6, 4⟩, 1, 30, 0⟩,
          ⟨"gym", ⟨0.1, 0.2, 0.3, 0.9, 0.5, 0.1, 0.1, 80, -20, 0, 2, 3⟩, -1, 5, 0⟩] =
        posScoreSum (fun _ _ => (1 / 2 : ℚ)) (fun _ => 1)
          ⟨0.8, 0.7, 0.6, 0.2, 0.1, 0.2, 0.1, 128, -5, 1, 4, 4⟩
          [⟨"study", ⟨0.9, 0.8, 0.7, 0.1, 0.05, 0.15, 0.05, 132, -4, 1, 6, 4⟩, 1, 30, 0⟩,
            ⟨"gym", ⟨0.1, 0.2, 0.3, 0.9, 0.5, 0.1, 0.1, 80, -20, 0, 2, 3⟩, -1, 5, 0⟩] /
          posWeightSum (fun _ => (1 : ℚ))
            [⟨"study", ⟨0.9, 0.8, 0.7, 0.1, 0.05, 0.15, 0.05, 132, -4, 1, 6, 4⟩, 1, 30, 0⟩,
              ⟨"gym", ⟨0.1, 0.2, 0.3, 0.9, 0.5, 0.1, 0.1, 80, -20, 0, 2, 3⟩, -1, 5, 0⟩]) :=
  calculatePersonalPreference_spec (fun _ _ => (1 / 2 : ℚ)) (fun _ => 1)
    ⟨0.8, 0.7, 0.6, 0.2, 0.1, 0.2, 0.1, 128, -5, 1, 4, 4⟩
    [⟨"study", ⟨0.9, 0.8, 0.7, 0.1, 0.05, 0.15, 0.05, 132, -4, 1, 6, 4⟩, 1, 30, 0⟩,
      ⟨"gym", ⟨0.1, 0.2, 0.3, 0.9, 0.5, 0.1, 0.1, 80, -20, 0, 2, 3⟩, -1, 5, 0⟩]
    (fun _ => by norm_num)

/-! ## Claim C6 — the diversifier's two-pass fill reaches `min(limit, n)`

`diversifyRecommendations` runs a greedy diversity pass (artist variety and
a `0.85` feature-similarity ceiling) and, if that selected fewer than
`limit` tracks, a second pass that fills the remaining slots from the ranked
list in order, skipping only tracks already present by `trackId`. -/

/-- A ranked track recommendation (the fields of `TrackRecommendation` the
diversifier reads); `α` is the scoring field of the blended confidence (see
C5/C7). -/
structure TrackRecommendation (α : Type) where
  trackId : String
  artists : List String
  audioFeatures : AudioFeatures
  confidence : α

/-- Does the candidate's audio profile exceed the similarity ceiling against
one of the already selected tracks?  A NaN similarity compares `false` in
JavaScript, which `SimValue.gtb` mirrors. -/
def tooSimilar {α : Type} (features : AudioFeatures)
    (diversified : List (TrackRecommendation α)) : Bool :=
  diversified.any fun d => (calculateSimilarity features d.audioFeatures none).gtb 0.85

/-- The artist-diversity skip: the primary artist is already used while
fewer than `limit / 2` artists are selected.  JavaScript `limit / 2` is
exact division, so the comparison is over `ℚ`. -/
def artistSkip (usedArtists : List String) (artists : List String) (limit : ℕ) : Bool :=
  match artists.head? with
  | some a => decide (a ∈ usedArtists) && decide ((usedArtists.length : ℚ) < (limit : ℚ) / 2)
  | none => false

/-- Adding the primary artist to the used set (a `Set` keeps one copy). -/
def addArtist (usedArtists : List String) (artists : List String) : List String :=
  match artists.head? with
  | some a => if a ∈ usedArtists then usedArtists else usedArtists ++ [a]
  | none => usedArtists

/-- First pass of `RecommendationEngineService.diversifyRecommendations`:
greedy scan of the ranked list, stopping at `limit`, skipping artist
repeats (under the half-quota rule) and near-duplicates by audio
similarity. -/
def diversifyPass1 {α : Type} : List (TrackRecommendation α) →
    List (TrackRecommendation α) → List String → ℕ → List (TrackRecommendation α)
  | [], diversified, _, _ => diversified
  | rec :: rest, diversified, usedArtists, limit =>
    if limit ≤ diversified.length then diversified
    else if artistSkip usedArtists rec.artists limit then
      diversifyPass1 rest diversified usedArtists limit
    else if tooSimilar rec.audioFeatures diversified then
      diversifyPass1 rest diversified usedArtists limit
    else
      diversifyPass1 rest (diversified ++ [rec]) (addArtist usedArtists rec.artists) limit

/-- Second pass: fill the remaining slots from the ranked list in order,
skipping only tracks already present (`find` by `trackId`). -/
def diversifyPass2 {α : Type} : List (TrackRecommendation α) →
    List (TrackRecommendation α) → ℕ → List (TrackRecommendation α)
  | [], diversified, _ => diversified
  | rec :: rest, diversified, limit =>
    if limit ≤ diversified.length then diversified
    else if diversified.any (fun d => decide (d.trackId = rec.trackId)) then
      diversifyPass2 rest diversified limit
    else diversifyPass2 rest (diversified ++ [rec]) limit

/-- `RecommendationEngineService.diversifyRecommendations`: the greedy pass,
then the fill pass when the first pass selected fewer than `limit`. -/
def diversifyRecommendations {α : Type} (recommendations : List (TrackRecommendation α))
    (limit : ℕ) : List (TrackRecommendation α) :=
  let diversified := diversifyPass1 recommendations [] [] limit
  if diversified.length < limit then diversifyPass2 recommendations diversified limit
  else diversified

/-- The first pass appends a selection that is a sublist of its input. -/
theorem diversifyPass1_append {α : Type} (recs : List (TrackRecommendation α)) :
    ∀ (ds : List (TrackRecommendation α)) (used : List String) (limit : ℕ),
      ∃ sel, sel.Sublist recs ∧ diversifyPass1 recs ds used limit = ds ++ sel := by
  induction recs with
  | nil =>
    intro ds used limit
    exact ⟨[], List.Sublist.refl [], by simp [diversifyPass1]⟩
  | cons r rest ih =>
    intro ds used limit
    simp only [diversifyPass1]
    split_ifs with h1 h2 h3
    · exact ⟨[], List.nil_sublist _, by simp⟩
    · obtain ⟨sel, hs, he⟩ := ih ds used limit
      exact ⟨sel, hs.cons r, he⟩
    · obtain ⟨sel, hs, he⟩ := ih ds used limit
      exact ⟨sel, hs.cons r, he⟩
    · obtain ⟨sel, hs, he⟩ := ih (ds ++ [r]) (addArtist used r.artists) limit
      refine ⟨r :: sel, hs.cons₂ r, ?_⟩
      rw [he, List.append_assoc, List.singleton_append]

/-- The first pass never exceeds the limit. -/
theorem diversifyPass1_length_le {α : Type} (recs : List (TrackRecommendation α)) :
    ∀ (ds : List (TrackRecommendation α)) (used : List String) (limit : ℕ),
      ds.length ≤ limit → (diversifyPass1 recs ds used limit).length ≤ limit := by
  induction recs with
  | nil =>
    intro ds used limit h
    simpa [diversifyPass1] using h
  | cons r rest ih =>
    intro ds used limit h
    simp only [diversifyPass1]
    split_ifs with h1 h2 h3
    · exact h
    · exact ih ds used limit h
    · exact ih ds used limit h
    · refine ih _ _ limit ?_
      rw [List.length_append]
      simpa using Nat.succ_le_of_lt (Nat.lt_of_not_le h1)

/-- The second pass appends a selection that is a sublist of its input. -/
theorem diversifyPass2_append {α : Type} (recs : List (TrackRecommendation α)) :
    ∀ (ds : List (TrackRecommendation α)) (limit : ℕ),
      ∃ sel, sel.Sublist recs ∧ diversifyPass2 recs ds limit = ds ++ sel := by
  induction recs with
  | nil =>
    intro ds limit
    exact ⟨[], List.Sublist.refl [], by simp [diversifyPass2]⟩
  | cons r rest ih =>
    intro ds limit
    simp only [diversifyPass2]
    split_ifs with h1 h2
    · exact ⟨[], List.nil_sublist _, by simp⟩
    · obtain ⟨sel, hs, he⟩ := ih ds limit
      exact ⟨sel, hs.cons r, he⟩
    · obtain ⟨sel, hs, he⟩ := ih (ds ++ [r]) limit
      refine ⟨r :: sel, hs.cons₂ r, ?_⟩
      rw [he, List.append_assoc, List.singleton_append]

/-- The second pass never exceeds the limit. -/
theorem diversifyPass2_length_le {α : Type} (recs : List (TrackRecommendation α)) :
    ∀ (ds : List (TrackRecommendation α)) (limit : ℕ),
      ds.length ≤ limit → (diversifyPass2 recs ds limit).length ≤ limit := by
  induction recs with
  | nil =>
    intro ds limit h
    simpa [diversifyPass2] using h
  | cons r rest ih =>
    intro ds limit h
    simp only [diversifyPass2]
    split_ifs with h1 h2
    · exact h
    · exact ih ds limit h
    · refine ih _ limit ?_
      rw [List.length_append]
      simpa using Nat.succ_le_of_lt (Nat.lt_of_not_le h1)

/-- The second pass keeps the selected track ids duplicate-free: it only
adds a track whose id is not yet present. -/
theorem diversifyPass2_nodup {α : Type} (recs : List (TrackRecommendation α)) :
    ∀ (ds : List (TrackRecommendation α)) (limit : ℕ),
      (ds.map (fun r => r.trackId)).Nodup →
      ((diversifyPass2 recs ds limit).map (fun r => r.trackId)).Nodup := by
  induction recs with
  | nil =>
    intro ds limit h
    simpa [diversifyPass2] using h
  | cons r rest ih =>
    intro ds limit h
    simp only [diversifyPass2]
    split_ifs with h1 h2
    · exact h
    · exact ih ds limit h
    · refine ih _ limit ?_
      rw [List.map_append, List.map_cons, List.map_nil, List.nodup_append]
      refine ⟨h, List.nodup_singleton _, ?_⟩
      intro a ha hb
      rw [List.mem_singleton] at hb
      obtain ⟨d, hd, hda⟩ := List.mem_map.mp ha
      apply h2
      rw [List.any_eq_true]
      refine ⟨d, hd, ?_⟩
      rw [decide_eq_true_eq, hda, hb]

/-- If the second pass ends below the limit, it has swallowed every input
track id. -/
theorem diversifyPass2_complete {α : Type} (recs : List (TrackRecommendation α)) :
    ∀ (ds : List (TrackRecommendation α)) (limit : ℕ),
      (diversifyPass2 recs ds limit).length < limit →
      ∀ r ∈ recs, r.trackId ∈ (diversifyPass2 recs ds limit).map (fun x => x.trackId) := by
  induction recs with
  | nil =>
    intro ds limit _ r hr
    exact absurd hr (List.not_mem_nil r)
  | cons x rest ih =>
    intro ds limit hlen r hr
    simp only [diversifyPass2] at hlen ⊢
    split_ifs at hlen ⊢ with h1 h2
    · exact absurd hlen (not_lt_of_le h1)
    · rcases List.mem_cons.mp hr with hr | hr
      · subst hr
        have hin : r.trackId ∈ ds.map (fun d => d.trackId) := by
          rw [List.any_eq_true] at h2
          obtain ⟨d, hd, hdec⟩ := h2
          have hdr : d.trackId = r.trackId := of_decide_eq_true hdec
          rw [← hdr]
          exact List.mem_map_of_mem _ hd
        obtain ⟨sel, -, he⟩ := diversifyPass2_append rest ds limit
        rw [he, List.map_append]
        exact List.mem_append_left _ hin
      · exact ih ds limit hlen r hr
    · rcases List.mem_cons.mp hr with hr | hr
      · subst hr
        obtain ⟨sel, -, he⟩ := diversifyPass2_append rest (ds ++ [r]) limit
        rw [he, List.map_append, List.map_append]
        refine List.mem_append_left _ (List.mem_append_right _ ?_)
        simp
      · exact ih _ limit hlen r hr

/-- C6: for pairwise-distinct track ids, a nonempty candidate list and a
limit of at least 1, the diversified list has exactly
`min limit |candidates|` entries — the fill pass restores anything the
diversity filters cut below the limit. -/
theorem diversifyRecommendations_length {α : Type}
    (recs : List (TrackRecommendation α)) (limit : ℕ)
    (hne : recs ≠ []) (hl : 1 ≤ limit)
    (hnd : (recs.map (fun r => r.trackId)).Nodup) :
    (diversifyRecommendations recs limit).length = min limit recs.length := by
  obtain ⟨ds1, hds1sub, hds1⟩ := diversifyPass1_append recs [] [] limit
  rw [List.nil_append] at hds1
  have hds1len : (diversifyPass1 recs [] [] limit).length ≤ limit :=
    diversifyPass1_length_le recs [] [] limit (by simp)
  unfold diversifyRecommendations
  by_cases hcase : (diversifyPass1 recs [] [] limit).length < limit
  · rw [if_pos hcase]
    have hnd1 : ((diversifyPass1 recs [] [] limit).map (fun r => r.trackId)).Nodup := by
      rw [hds1]
      exact (hds1sub.map (fun r => r.trackId)).nodup hnd
    have ha : (diversifyPass2 recs (diversifyPass1 recs [] [] limit) limit).length ≤ limit :=
      diversifyPass2_length_le recs _ limit hds1len
    have hndD : ((diversifyPass2 recs (diversifyPass1 recs [] [] limit) limit).map
        (fun r => r.trackId)).Nodup :=
      diversifyPass2_nodup recs _ limit hnd1
    obtain ⟨sel2, hsel2sub, hsel2⟩ :=
      diversifyPass2_append recs (diversifyPass1 recs [] [] limit) limit
    have hsubD : diversifyPass2 recs (diversifyPass1 recs [] [] limit) limit ⊆ recs := by
      rw [hsel2, hds1]
      exact List.append_subset.mpr ⟨hds1sub.subset, hsel2sub.subset⟩
    have hb : (diversifyPass2 recs (diversifyPass1 recs [] [] limit) limit).length ≤
        recs.length := by
      have hsp := (hndD.subperm (List.map_subset (fun r => r.trackId) hsubD)).length_le
      simpa using hsp
    have hc : min limit recs.length ≤
        (diversifyPass2 recs (diversifyPass1 recs [] [] limit) limit).length := by
      by_cases hDlen :
        (diversifyPass2 recs (diversifyPass1 recs [] [] limit) limit).length < limit
      · have hall := diversifyPass2_complete recs (diversifyPass1 recs [] [] limit) limit hDlen
        have hsub : recs.map (fun r => r.trackId) ⊆
            (diversifyPass2 recs (diversifyPass1 recs [] [] limit) limit).map
              (fun r => r.trackId) := by
          intro a hamem
          obtain ⟨r, hr, hra⟩ := List.mem_map.mp hamem
          rw [← hra]
          exact hall r hr
        have hsp := (hnd.subperm hsub).length_le
        simp only [List.length_map] at hsp
        exact le_trans (min_le_right _ _) hsp
      · exact le_trans (min_le_left _ _) (le_of_not_lt hDlen)
    exact le_antisymm (le_min ha hb) hc
  · rw [if_neg hcase]
    have heq : (diversifyPass1 recs [] [] limit).length = limit :=
      le_antisymm hds1len (le_of_not_lt hcase)
    rw [heq]
    have hlim : limit ≤ recs.length := by
      rw [← heq, hds1]
      exact hds1sub.length_le
    rw [min_eq_left hlim]

/-- C6 witness: three distinct tracks (two sharing an artist), limit 2 — the
diversified list has exactly `min 2 3 = 2` entries. -/
theorem diversifyRecommendations_length_witness :
    (diversifyRecommendations
      [⟨"a", ["Artist A"], ⟨0.8, 0.7, 0.6, 0.2, 0.1, 0.2, 0.1, 128, -5, 1, 4, 4⟩, (9/10 : ℚ)⟩,
        ⟨"b", ["Artist B"], ⟨0.1, 0.2, 0.3, 0.9, 0.5, 0.1, 0.1, 80, -20, 0, 2, 3⟩, 8/10⟩,
        ⟨"c", ["Artist A"], ⟨0.9, 0.8, 0.7, 0.1, 0.05, 0.15, 0.05, 132, -4, 1, 6, 4⟩, 7/10⟩]
      2).length =
      min 2 (List.length
        ([⟨"a", ["Artist A"], ⟨0.8, 0.7, 0.6, 0.2, 0.1, 0.2, 0.1, 128, -5, 1, 4, 4⟩, (9/10 : ℚ)⟩,
          ⟨"b", ["Artist B"], ⟨0.1, 0.2, 0.3, 0.9, 0.5, 0.1, 0.1, 80, -20, 0, 2, 3⟩, 8/10⟩,
          ⟨"c", ["Artist A"], ⟨0.9, 0.8, 0.7, 0.1, 0.05, 0.15, 0.05, 132, -4, 1, 6, 4⟩,
            7/10⟩] : List (TrackRecommendation ℚ))) :=
  diversifyRecommendations_length
    [⟨"a", ["Artist A"], ⟨0.8, 0.7, 0.6, 0.2, 0.1, 0.2, 0.1, 128, -5, 1, 4, 4⟩, (9/10 : ℚ)⟩,
      ⟨"b", ["Artist B"], ⟨0.1, 0.2, 0.3, 0.9, 0.5, 0.1, 0.1, 80, -20, 0, 2, 3⟩, 8/10⟩,
      ⟨"c", ["Artist A"], ⟨0.9, 0.8, 0.7, 0.1, 0.05, 0.15, 0.05, 132, -4, 1, 6, 4⟩, 7/10⟩]
    2 (by simp) (by norm_num) (by simp)

/-! ## Claim C7 — ranking: the 70/30 blend and the stable descending sort

`rankByIndividualPreference` gives each candidate the blended score
`similarity * 0.7 + personalPreference * 0.3` as its confidence and sorts by
`(a, b) => b.confidence - a.confidence`.  `Array.prototype.sort` is stable
(ECMAScript 2019), modelled by the stable `List.mergeSort` under the boolean
relation `b.confidence ≤ a.confidence`.  The similarity and
personal-preference values are irrational reals in general, so the ranking
is parametric in the two scoring functions (`α := ℝ` with the genuine
helpers gives the exact semantics). -/

/-- A candidate (`{trackId, features}`) as supplied to the ranker. -/
structure CandidateTrack where
  trackId : String
  features : AudioFeatures

/-- The recommendation record built for one candidate inside
`rankByIndividualPreference`: `simFn` abstracts
`calculateSimilarity(weightedProfile, features, weights)`, `ppFn` abstracts
`calculatePersonalPreference(features, userProfile)`, and `artistsOf` the
track-details lookup; the blended confidence is
`similarity * 0.7 + personalPreference * 0.3`. -/
def scoreCandidate {α : Type} [LinearOrderedField α]
    (simFn ppFn : AudioFeatures → α) (artistsOf : String → List String)
    (c : CandidateTrack) : TrackRecommendation α :=
  { trackId := c.trackId
    artists := artistsOf c.trackId
    audioFeatures := c.features
    confidence := simFn c.features * (7 / 10) + ppFn c.features * (3 / 10) }

/-- The sort comparator `(a, b) => b.confidence - a.confidence` orders `a`
before `b` exactly when `b.confidence ≤ a.confidence`. -/
def confDesc {α : Type} [LinearOrderedField α] [∀ a b : α, Decidable (a ≤ b)]
    (a b : TrackRecommendation α) : Bool :=
  decide (b.confidence ≤ a.confidence)

/-- `RecommendationEngineService.rankByIndividualPreference`: score each
candidate and stable-sort descending by the blended confidence. -/
def rankByIndividualPreference {α : Type} [LinearOrderedField α]
    [∀ a b : α, Decidable (a ≤ b)]
    (simFn ppFn : AudioFeatures → α) (artistsOf : String → List String)
    (candidates : List CandidateTrack) : List (TrackRecommendation α) :=
  (candidates.map (scoreCandidate simFn ppFn artistsOf)).mergeSort confDesc

/-- The comparator is transitive. -/
theorem confDesc_trans {α : Type} [LinearOrderedField α] [∀ a b : α, Decidable (a ≤ b)]
    (a b c : TrackRecommendation α) :
    confDesc a b = true → confDesc b c = true → confDesc a c = true := by
  unfold confDesc
  intro h1 h2
  rw [decide_eq_true_eq] at h1 h2 ⊢
  exact le_trans h2 h1

/-- The comparator is total. -/
theorem confDesc_total {α : Type} [LinearOrderedField α] [∀ a b : α, Decidable (a ≤ b)]
    (a b : TrackRecommendation α) : (confDesc a b || confDesc b a) = true := by
  unfold confDesc
  rcases le_total b.confidence a.confidence with h | h
  · rw [decide_eq_true h]
    rfl
  · rw [decide_eq_true h]
    simp

/-- C7: every candidate is scored `similarity * 0.7 + personal * 0.3`; the
ranked output is a permutation of the scored candidates, sorted
non-increasingly by confidence, and equal-confidence candidates keep their
input order (the ranked list filtered to any one confidence value coincides
with the scored input so filtered). -/
theorem rankByIndividualPreference_spec {α : Type} [LinearOrderedField α]
    [∀ a b : α, Decidable (a ≤ b)] [DecidableEq α]
    (simFn ppFn : AudioFeatures → α) (artistsOf : String → List String)
    (candidates : List CandidateTrack) :
    (∀ c ∈ candidates, (scoreCandidate simFn ppFn artistsOf c).confidence =
      simFn c.features * (7 / 10) + ppFn c.features * (3 / 10)) ∧
    (rankByIndividualPreference simFn ppFn artistsOf candidates).Perm
      (candidates.map (scoreCandidate simFn ppFn artistsOf)) ∧
    List.Pairwise (fun a b => b.confidence ≤ a.confidence)
      (rankByIndividualPreference simFn ppFn artistsOf candidates) ∧
    ∀ q : α,
      (rankByIndividualPreference simFn ppFn artistsOf candidates).filter
          (fun r => decide (r.confidence = q)) =
        (candidates.map (scoreCandidate simFn ppFn artistsOf)).filter
          (fun r => decide (r.confidence = q)) := by
  refine ⟨fun c _ => rfl, List.mergeSort_perm _ _, ?_, ?_⟩
  · have hs := List.sorted_mergeSort confDesc_trans confDesc_total
      (candidates.map (scoreCandidate simFn ppFn artistsOf))
    exact hs.imp fun h => by
      rw [confDesc, decide_eq_true_eq] at h
      exact h
  · intro q
    set L := candidates.map (scoreCandidate simFn ppFn artistsOf) with hL
    set p : TrackRecommendation α → Bool := fun r => decide (r.confidence = q) with hp
    have hpair : List.Pairwise (fun a b => confDesc a b = true) (L.filter p) := by
      apply List.pairwise_of_forall_mem_list
      intro a ha b hb
      have haq : a.confidence = q := by
        have := (List.mem_filter.mp ha).2
        rw [hp, decide_eq_true_eq] at this
        exact this
      have hbq : b.confidence = q := by
        have := (List.mem_filter.mp hb).2
        rw [hp, decide_eq_true_eq] at this
        exact this
      rw [confDesc, decide_eq_true_eq, haq, hbq]
    have hsl : (L.filter p).Sublist (L.mergeSort confDesc) :=
      List.sublist_mergeSort confDesc_trans confDesc_total hpair (List.filter_sublist L)
    have hself : (L.filter p).filter p = L.filter p := by
      rw [List.filter_eq_self]
      intro r hr
      exact (List.mem_filter.mp hr).2
    have hsl2 : (L.filter p).Sublist ((L.mergeSort confDesc).filter p) := by
      rw [← hself]
      exact hsl.filter p
    have hlen : ((L.mergeSort confDesc).filter p).length = (L.filter p).length :=
      ((List.mergeSort_perm L confDesc).filter p).length_eq
    exact (hsl2.eq_of_length hlen.symm).symm

end Vybe
